import Mathlib

/-!
Verification of the directive-expansion engine of `bppcomp.py`
(repository `infernostars/bppcomp`).

The Python source is shallowly embedded: the directive parser
(`parse_directive`), the built-in directive handlers, and the recursive
expansion engine (`process_file_recursive`) become executable Lean
functions.  Python's mutable processor state (`current_path`, plus an
instrumentation log of file reads) is threaded explicitly; Python
exceptions become an `Except`-style error component; the (potentially
non-terminating) rewrite loop takes an explicit fuel argument, with a
distinguished `fuel` outcome marking that the loop did not finish within
the given number of engine steps (so `∀ fuel, … = fuel-error` expresses
non-termination of the source loop).
-/

namespace Bppcomp

/-- Literal `{` character (bppcomp.py line 68). -/
def lbrace : Char := Char.ofNat 123

/-- Literal `}` character (bppcomp.py line 71). -/
def rbrace : Char := Char.ofNat 125

/-- Char class of the regex `\s` and of Python `str.isspace`/`str.strip`
on the ASCII range: space, tab, newline, carriage return, vertical tab,
form feed. -/
def isPySpace (c : Char) : Bool :=
  c = ' ' || c = '\t' || c = '\n' || c = '\r' || c = '\x0b' || c = '\x0c'

/-- Char class of the regex `[\w_]` (ASCII range): word characters;
the extra `_` of the source's character class is already contained in
`\w`. -/
def isWordChar (c : Char) : Bool := c.isAlphanum || c = '_'

/-- Python `str.strip()` on a char list: drop leading and trailing
whitespace (bppcomp.py line 59). -/
def pyStrip (cs : List Char) : List Char :=
  ((cs.dropWhile isPySpace).reverse.dropWhile isPySpace).reverse

/-- The argument-tokenization loop of `parse_directive`
(bppcomp.py lines 62–82): accumulate characters into `cur`, tracking
"inside a brace token" as a single boolean toggle (`in_braces`), and
flush `cur` to the token list at whitespace outside brace state. -/
def tokenize_args_loop : List Char → List Char → Bool → List String
  | [], cur, _ => if cur.isEmpty then [] else [String.mk cur]
  | c :: rest, cur, inBraces =>
    if c = lbrace then tokenize_args_loop rest (cur ++ [c]) true
    else if c = rbrace then tokenize_args_loop rest (cur ++ [c]) false
    else if isPySpace c && !inBraces then
      if cur.isEmpty then tokenize_args_loop rest [] inBraces
      else String.mk cur :: tokenize_args_loop rest [] inBraces
    else tokenize_args_loop rest (cur ++ [c]) inBraces

/-- Argument tokenization of `parse_directive` applied to the stripped
argument region (bppcomp.py lines 59–82). -/
def tokenize_args (cs : List Char) : List String :=
  tokenize_args_loop cs [] false

/-- Lazy scan of `\{.*?\}`'s tail: split the input at the first `}`,
returning the consumed span (closing brace included) and the rest.
Fails at end of input or at a newline, since the regex `.` does not
match `\n`. -/
def spanToClose : List Char → Option (List Char × List Char)
  | [] => none
  | c :: rest =>
    if c = rbrace then some ([c], rest)
    else if c = '\n' then none
    else
      match spanToClose rest with
      | some (tk, rem) => some (c :: tk, rem)
      | none => none

/-- Greedy scan of the regex alternative `[^\]\s]+`: the maximal
nonempty run of characters that are neither `]` nor whitespace. -/
def runToken (cs : List Char) : Option (List Char × List Char) :=
  let t := cs.takeWhile fun c => !(c = ']') && !(isPySpace c)
  if t.isEmpty then none else some (t, cs.drop t.length)

/-- One argument token of the regex `(?:\{.*?\}|[^\]\s]+)`.  The brace
alternative is tried first (lazily closing at the first `}`); if it
cannot match, the plain-run alternative is tried.  This resolves the
regex's alternation deterministically; it agrees with Python's
backtracking matcher on every buffer whose brace tokens contain no `}`
before their closing brace, which covers all inputs considered here. -/
def matchToken (cs : List Char) : Option (List Char × List Char) :=
  match cs with
  | [] => none
  | c :: rest =>
    if c = lbrace then
      match spanToClose rest with
      | some (tk, rem) => some (c :: tk, rem)
      | none => runToken cs
    else runToken cs

/-- Fueled matcher for the args-and-close part of the directive regex,
`((?:\s+(?:\{.*?\}|[^\]\s]+))*)\]`: either the closing `]` comes next,
or a whitespace run followed by one token, repeatedly.  Returns the
argument-region characters (everything before `]`, leading whitespace
of each token included, exactly the regex's group 2) and the rest of
the input after `]`.  Fuel is an upper bound on recursion; any fuel
larger than the input length is sufficient. -/
def matchTailF : Nat → List Char → Option (List Char × List Char)
  | 0, _ => none
  | _ + 1, [] => none
  | fuel + 1, c :: rest =>
    if c = ']' then some ([], rest)
    else if isPySpace c then
      let ws := (c :: rest).takeWhile isPySpace
      match matchToken ((c :: rest).drop ws.length) with
      | none => none
      | some (tk, rem) =>
        match matchTailF fuel rem with
        | some (argChars, rest2) => some (ws ++ tk ++ argChars, rest2)
        | none => none
    else none

/-- Attempt to match the directive regex
`\[\$([\w_]+)((?:\s+(?:\{.*?\}|[^\]\s]+))*)\]` at the start of the
input.  Returns the directive name (group 1), the raw argument region
(group 2), and the total number of characters of the full match. -/
def matchAt (cs : List Char) : Option (String × List Char × Nat) :=
  match cs with
  | c1 :: c2 :: rest =>
    if c1 = '[' && c2 = '$' then
      let nm := rest.takeWhile isWordChar
      if nm.isEmpty then none
      else
        let afterName := rest.drop nm.length
        match matchTailF (afterName.length + 1) afterName with
        | some (argChars, _) => some (String.mk nm, argChars, 2 + nm.length + argChars.length + 1)
        | none => none
    else none
  | _ => none

/-- Leftmost search of `re.search` (bppcomp.py line 53): try `matchAt`
at each position from the left; report the first success together with
its start index. -/
def searchAux : List Char → Nat → Option (Nat × String × List Char × Nat)
  | [], _ => none
  | c :: rest, i =>
    match matchAt (c :: rest) with
    | some (nm, argChars, len) => some (i, nm, argChars, len)
    | none => searchAux rest (i + 1)

/-- A matched directive (bppcomp.py lines 10–17).  `stop` is the
source's `end` field (a Lean keyword).  `start` and `stop` are
character indices into the buffer. -/
structure DirectiveMatch where
  full_match : String
  directive_name : String
  args : List String
  start : Nat
  stop : Nat
deriving Repr, DecidableEq

/-- `FileProcessor.parse_directive` (bppcomp.py lines 50–90): find the
leftmost occurrence of the directive regex, then tokenize its stripped
argument region with the brace-toggle loop. -/
def parse_directive (content : String) : Option DirectiveMatch :=
  match searchAux content.data 0 with
  | none => none
  | some (i, nm, argChars, len) =>
    some { full_match := String.mk ((content.data.drop i).take len)
           directive_name := nm
           args := tokenize_args (pyStrip argChars)
           start := i
           stop := i + len }

/-! ## Python values and helpers used by the handlers -/

/-- An argument scope / argument dictionary: Python `Dict[str, str]`,
modelled as an association list (first binding wins, as in a dict with
distinct keys). -/
abbrev Dict := List (String × String)

/-- Python `d.get(k, default-absent)`: first binding of `k`, if any. -/
def dictGet (d : Dict) (k : String) : Option String :=
  match d with
  | [] => none
  | (k', v) :: rest => if k' = k then some v else dictGet rest k

/-- Python truthiness of the string values stored in a scope: the empty
string is falsy, every other string is truthy. -/
def pyTruthy (s : String) : Bool := s ≠ ""

/-- Python `' '.join(args)` (bppcomp.py lines 111, 192). -/
def joinSpace : List String → String
  | [] => ""
  | [a] => a
  | a :: rest => a ++ " " ++ joinSpace rest

/-- Digits-only parse helper for `pyInt`. -/
def digitsToNat : List Char → Option Nat
  | [] => none
  | cs => cs.foldl (fun acc c =>
      match acc with
      | none => none
      | some n => if c.isDigit then some (n * 10 + (c.toNat - 48)) else none)
      (some 0)

/-- Model of Python `int(s)` (bppcomp.py line 98): optional surrounding
whitespace, optional sign, then decimal digits; any other input raises
`ValueError`, modelled as `none`. -/
def pyInt (s : String) : Option Int :=
  match pyStrip s.data with
  | '-' :: ds => (digitsToNat ds).map fun n => -(n : Int)
  | '+' :: ds => (digitsToNat ds).map fun n => (n : Int)
  | ds => (digitsToNat ds).map fun n => (n : Int)

/-- Model of Python `eval` as used at bppcomp.py lines 136 and 166,
restricted to its use there: the argument token is accepted exactly
when it is a dictionary literal with single- or double-quoted string
keys and values (e.g. `{'y': '2'}`), yielding the corresponding
mapping; every other input is `none`, covering both an `eval` failure
and a non-`dict` result (the source collapses both to "no argument
dictionary"). -/
def evalDictLit (s : String) : Option Dict :=
  let quoted : List Char → Option (String × List Char) := fun cs =>
    match cs with
    | q :: rest =>
      if q = '\'' || q = '"' then
        let body := rest.takeWhile (fun c => c ≠ q)
        match rest.drop body.length with
        | _ :: rem => some (String.mk body, rem)
        | [] => none
      else none
    | [] => none
  let rec entries : Nat → List Char → Option Dict := fun fuel cs =>
    match fuel with
    | 0 => none
    | fuel + 1 =>
      match quoted (cs.dropWhile isPySpace) with
      | none => none
      | some (k, rem1) =>
        match rem1.dropWhile isPySpace with
        | ':' :: rem2 =>
          match quoted (rem2.dropWhile isPySpace) with
          | none => none
          | some (v, rem3) =>
            match rem3.dropWhile isPySpace with
            | ',' :: rem4 => (entries fuel rem4).map fun d => (k, v) :: d
            | c :: rem4 => if c = rbrace && (rem4.dropWhile isPySpace).isEmpty
                            then some [(k, v)] else none
            | [] => none
        | _ => none
  match s.data.dropWhile isPySpace with
  | c :: rest =>
    if c = lbrace then
      match rest.dropWhile isPySpace with
      | c' :: rem => if c' = rbrace && (rem.dropWhile isPySpace).isEmpty
                      then some []
                      else entries (s.length + 1) rest
      | [] => none
    else none
  | [] => none

/-! ## Engine state, errors, environment -/

/-- The mutable processor state that the claims are about:
`current_path` is `FileProcessor.current_path` (the call stack of
in-progress source names, outermost first); `reads` is an
instrumentation log recording, in order, every filename passed to
`read_file_content` (i.e. every attempted file load). -/
structure PState where
  current_path : List String
  reads : List String
deriving Repr, DecidableEq

/-- Python exceptions that can cross `process_file_recursive`'s
boundary: `circular` is `CircularReferenceError` (carrying the stack
path `current_path + [filename]` that the source formats into its
message with `' -> '.join`); `depthExceeded` is the `RecursionError`
of the depth ceiling; `indexError` is the uncaught `IndexError` raised
by `args[1]` in `_handle_fileif`; `fuel` is a model artifact marking
that the engine did not finish within the given number of steps. -/
inductive PErr where
  | circular (path : List String)
  | depthExceeded
  | indexError
  | fuel
deriving Repr, DecidableEq

/-- The external collaborators: `fs` is the file system seen by
`read_file_content` (`none` = the file cannot be read); `pyEval` is
the host expression evaluator used by `_handle_python_eval`
(`none` = the evaluation raised). -/
structure Env where
  fs : String → Option String
  pyEval : String → Option String

/-- `FileProcessor.read_file_content` (bppcomp.py lines 37–48):
returns the file's content, or the literal fallback placeholder
`[$file <name>]` when it cannot be read.  It never fails. -/
def read_file_content (fs : String → Option String) (filename : String) : String :=
  match fs filename with
  | some c => c
  | none => "[$file " ++ filename ++ "]"

/-- Python's `content[:start] + replacement + content[end:]`
(bppcomp.py lines 232–236), with character indices. -/
def splice (content : String) (start stop : Nat) (replacement : String) : String :=
  String.mk (content.data.take start ++ replacement.data ++ content.data.drop stop)

/-- The expansion context built at bppcomp.py lines 214–218:
`{'depth': depth + 1, 'args': args or {}, 'filename': filename}`. -/
structure Ctx where
  depth : Nat
  args : Dict
  filename : String
deriving Repr, DecidableEq

/-! ## Pure handlers -/

/-- `FileProcessor._handle_arg` (bppcomp.py lines 179–185): look the
name up in the current frame's scope only; if unbound, return the
literal placeholder echoing the name. -/
def handle_arg (args : List String) (ctx : Ctx) : String :=
  match args with
  | [] => "[# $arg missing_name]"
  | a0 :: _ => (dictGet ctx.args a0).getD ("[# $arg " ++ a0 ++ "]")

/-- `FileProcessor._handle_python_eval` (bppcomp.py lines 187–198):
join the arguments with spaces and hand them to the host evaluator;
on failure return the placeholder echoing the expression. -/
def handle_python_eval (env : Env) (args : List String) : String :=
  match args with
  | [] => "[# $python_eval missing_expression]"
  | _ =>
    let expression := joinSpace args
    match env.pyEval expression with
    | some r => r
    | none => "[# $python_eval " ++ expression ++ "]"

/-- `FileProcessor._generate_repeated_math_pattern`
(bppcomp.py lines 113–123), including the source's redundant separate
`level == 0` early return before the inner `build_pattern`. -/
def generate_repeated_math_pattern (level : Nat) (var_name operation : String) : String :=
  match level with
  | 0 => "[VAR " ++ var_name ++ "0]"
  | _ + 1 => build_pattern level var_name operation
where
  /-- The inner `build_pattern` closure (bppcomp.py lines 118–121). -/
  build_pattern : Nat → String → String → String
    | 0, var_name, _ => "[VAR " ++ var_name ++ "0]"
    | n + 1, var_name, operation =>
      "[MATH [VAR " ++ var_name ++ Nat.repr (n + 1) ++ "] " ++ operation ++ " "
        ++ build_pattern n var_name operation ++ "]"

/-- `FileProcessor._handle_generate_recursive` (bppcomp.py lines
92–111).  The source computes, inside one `try`, `level` (an `int()`
of the scope value of `args[0]`, default `'0'`), then `args[1]`,
`args[2]`, `args[3]` — so with exactly three arguments the `args[3]`
lookup raises `IndexError` and the `except` returns the placeholder
echoing the raw arguments, and likewise for an `int()` failure.  A
negative level makes `build_pattern` recurse without a base case until
Python's `RecursionError`, which the same `except` catches: also the
echo placeholder. -/
def handle_generate_recursive (args : List String) (ctx : Ctx) : String :=
  if args.length < 3 then "[$generate_recursive missing_arguments]"
  else
    match args with
    | a0 :: a1 :: a2 :: rest =>
      match pyInt ((dictGet ctx.args a0).getD "0"), rest with
      | some level, a3 :: _ =>
        if a1 = "math" then
          match level with
          | .ofNat n => generate_repeated_math_pattern n a2 a3
          | .negSucc _ => "[$generate_recursive " ++ joinSpace args ++ "]"
        else "[$generate_recursive unknown_pattern_type " ++ a1 ++ "]"
      | _, _ => "[$generate_recursive " ++ joinSpace args ++ "]"
    | _ => "[$generate_recursive missing_arguments]"

/-! ## The recursive expansion engine

`FileProcessor.process_file_recursive` (bppcomp.py lines 200–239) and
the built-in `file` / `fileif` handlers that re-enter it (lines
125–177).  `fuel` bounds the number of engine steps; every internal
call runs on one unit less.  The registry `self.directives` after
`__init__` (lines 26–31) is the fixed name dispatch in
`process_loop`. -/

/-- The four mutually recursive activities of the engine, reified so
that the whole engine is one function with structural recursion on
fuel (and hence computes by kernel reduction): a
`process_file_recursive` activation, one `while`-loop activation over a
buffer, and the two recursing handlers. -/
inductive Call where
  | procFile (filename : String) (args : Option Dict) (depth : Nat)
  | loop (content : String) (ctx : Ctx)
  | hFile (args : List String) (ctx : Ctx)
  | hFileif (args : List String) (ctx : Ctx)

/-- The engine.  Each branch is one of the source's four mutually
recursive pieces:

* `.procFile` is `FileProcessor.process_file_recursive`
  (bppcomp.py lines 200–239): depth-ceiling check, cycle check against
  `current_path`, push, load, run the rewrite loop, pop, return.  The
  pop happens only on the normal return path — the source has no
  `try/finally` — so an exception escaping the loop leaves the pushed
  name on the stack.

* `.loop` is the `while True` rewrite loop (lines 220–236): find the
  leftmost directive; if none, the buffer is the result; otherwise
  dispatch on the names registered in `__init__` (lines 26–31), or —
  for an unregistered name — print a warning and substitute the
  original matched text unchanged; splice the replacement over the
  matched span and repeat from the start of the updated buffer.

* `.hFile` is `FileProcessor._handle_file` (lines 125–147): empty
  argument list degrades to a placeholder; an optional second argument
  is `eval`ed into an argument dictionary (failure or non-dict
  degrades to no dictionary); then the target is expanded recursively
  at the current context depth, with `CircularReferenceError` and
  `RecursionError` caught and converted into the literal
  `[# $file <name>: infinite loop]` placeholder.  Other exceptions
  propagate.

* `.hFileif` is `FileProcessor._handle_fileif` (lines 149–177): empty
  argument list degrades to a placeholder; with exactly one argument
  the unguarded `check = args[1]` raises `IndexError` (which nothing
  below catches); a falsy or absent gate key in the current scope
  returns the empty string without touching the target; a truthy gate
  behaves like `file` (with `args[2]` as the optional dictionary
  literal), except that the circular/depth placeholder omits the
  "infinite loop" wording. -/
def engine (fuel : Nat) (env : Env) (call : Call) (st : PState) :
    Except PErr String × PState :=
  match fuel with
  | 0 => (.error .fuel, st)
  | fuel + 1 =>
    match call with
    | .procFile filename args depth =>
      if depth > 100 then (.error .depthExceeded, st)
      else if filename ∈ st.current_path then
        (.error (.circular (st.current_path ++ [filename])), st)
      else
        let st1 : PState := { current_path := st.current_path ++ [filename],
                              reads := st.reads ++ [filename] }
        let content := read_file_content env.fs filename
        let ctx : Ctx := { depth := depth + 1, args := args.getD [], filename := filename }
        match engine fuel env (.loop content ctx) st1 with
        | (.ok out, st2) => (.ok out, { st2 with current_path := st2.current_path.dropLast })
        | (.error e, st2) => (.error e, st2)
    | .loop content ctx =>
      match parse_directive content with
      | none => (.ok content, st)
      | some dm =>
        if dm.directive_name = "file" then
          match engine fuel env (.hFile dm.args ctx) st with
          | (.ok replacement, st1) =>
            engine fuel env (.loop (splice content dm.start dm.stop replacement) ctx) st1
          | (.error e, st1) => (.error e, st1)
        else if dm.directive_name = "fileif" then
          match engine fuel env (.hFileif dm.args ctx) st with
          | (.ok replacement, st1) =>
            engine fuel env (.loop (splice content dm.start dm.stop replacement) ctx) st1
          | (.error e, st1) => (.error e, st1)
        else if dm.directive_name = "arg" then
          engine fuel env (.loop (splice content dm.start dm.stop (handle_arg dm.args ctx)) ctx) st
        else if dm.directive_name = "python_eval" then
          engine fuel env
            (.loop (splice content dm.start dm.stop (handle_python_eval env dm.args)) ctx) st
        else if dm.directive_name = "generate_recursive" then
          engine fuel env
            (.loop (splice content dm.start dm.stop (handle_generate_recursive dm.args ctx)) ctx) st
        else
          engine fuel env (.loop (splice content dm.start dm.stop dm.full_match) ctx) st
    | .hFile args ctx =>
      match args with
      | [] => (.ok "[$file missing_filename]", st)
      | filename :: restArgs =>
        let file_args : Option Dict :=
          match restArgs with
          | [] => none
          | a1 :: _ => evalDictLit a1
        match engine fuel env (.procFile filename file_args ctx.depth) st with
        | (.ok r, st1) => (.ok r, st1)
        | (.error (.circular _), st1) => (.ok ("[# $file " ++ filename ++ ": infinite loop]"), st1)
        | (.error .depthExceeded, st1) => (.ok ("[# $file " ++ filename ++ ": infinite loop]"), st1)
        | (.error .indexError, st1) => (.error .indexError, st1)
        | (.error .fuel, st1) => (.error .fuel, st1)
    | .hFileif args ctx =>
      match args with
      | [] => (.ok "[# $file missing_filename]", st)
      | [_] => (.error .indexError, st)
      | filename :: check :: restArgs =>
        if !(((dictGet ctx.args check).map pyTruthy).getD false) then (.ok "", st)
        else
          let file_args : Option Dict :=
            match restArgs with
            | [] => none
            | a2 :: _ => evalDictLit a2
          match engine fuel env (.procFile filename file_args ctx.depth) st with
          | (.ok r, st1) => (.ok r, st1)
          | (.error (.circular _), st1) => (.ok ("[# $file " ++ filename ++ "]"), st1)
          | (.error .depthExceeded, st1) => (.ok ("[# $file " ++ filename ++ "]"), st1)
          | (.error .indexError, st1) => (.error .indexError, st1)
          | (.error .fuel, st1) => (.error .fuel, st1)

/-- `FileProcessor.process_file_recursive` (bppcomp.py lines 200–239),
as the corresponding engine activity. -/
def process_file_recursive (fuel : Nat) (env : Env) (filename : String)
    (args : Option Dict) (depth : Nat) (st : PState) : Except PErr String × PState :=
  engine fuel env (.procFile filename args depth) st

/-- The `while True` rewrite loop of `process_file_recursive`
(bppcomp.py lines 220–236), as the corresponding engine activity. -/
def process_loop (fuel : Nat) (env : Env) (content : String) (ctx : Ctx)
    (st : PState) : Except PErr String × PState :=
  engine fuel env (.loop content ctx) st

/-- `FileProcessor._handle_file` (bppcomp.py lines 125–147), as the
corresponding engine activity. -/
def handle_file (fuel : Nat) (env : Env) (args : List String) (ctx : Ctx)
    (st : PState) : Except PErr String × PState :=
  engine fuel env (.hFile args ctx) st

/-- `FileProcessor._handle_fileif` (bppcomp.py lines 149–177), as the
corresponding engine activity. -/
def handle_fileif (fuel : Nat) (env : Env) (args : List String) (ctx : Ctx)
    (st : PState) : Except PErr String × PState :=
  engine fuel env (.hFileif args ctx) st

/-- The initial processor state: fresh `FileProcessor` (empty call
stack) and an empty read log. -/
def initState : PState := { current_path := [], reads := [] }

/-! ## Concrete test fixtures

Small file systems used to settle the claims on concrete documents.
Each is a finite association of source names to contents; every other
name is unreadable (the loader then returns its fallback
placeholder). -/

/-- A finite file system from an association list. -/
def fsOf (files : List (String × String)) : String → Option String :=
  fun n => (files.find? (fun p => p.1 = n)).map Prod.snd

/-- An environment with the given files and a host evaluator that
always raises (no claim exercises a successful `eval`). -/
def envOf (files : List (String × String)) : Env :=
  { fs := fsOf files, pyEval := fun _ => none }

/-- Document whose only directive is a `fileif` invoked with one
argument (the gate key is missing). -/
def envFileifOneArg : Env := envOf [("doc1", "[$fileif f]")]

/-- Document whose only directive is a `generate_recursive` invoked
with fewer than 3 arguments. -/
def envGenTwoArgs : Env := envOf [("doc2", "[$generate_recursive a b]")]

/-- Document with an unbound `arg` and a failing `python_eval` —
failures that do stay local. -/
def envLocalFailures : Env := envOf [("doc3", "x [$arg nope] y [$python_eval 1 +] z")]

/-- Document including a source that does not exist. -/
def envMissingSource : Env := envOf [("top", "[$file nope]")]

/-- Document containing a directive with an unregistered name. -/
def envUnknownDirective : Env := envOf [("doc", "ab [$nope] cd")]

/-- Document raising the `fileif` one-argument `IndexError` (for the
stack-balance claim). -/
def envStackLeak : Env := envOf [("doc5", "[$fileif f]")]

/-- A plain one-file system (for the stack-balance witness). -/
def envPlain : Env := envOf [("w.txt", "hello")]

/-- The two mutually including sources of the cycle scenario. -/
def envCycle : Env := envOf [("a", "[$file b]"), ("b", "[$file a]")]

/-- Scope-isolation scenario: `top` includes `nested` with the
explicit dictionary literal `{'y': '2'}`; `nested` looks up both `x`
(bound only at top level) and `y`. -/
def envScopes : Env :=
  envOf [("top", "[$file nested \x7b'y': '2'\x7d]"), ("nested", "[$arg x] [$arg y]")]

/-- `fileif` gating scenario: `x.txt` conditionally includes
`other.txt` under the gate key `flag`. -/
def envGate : Env := envOf [("x.txt", "[$fileif other.txt flag]"), ("other.txt", "OTHER")]

/-- `generate_recursive` end-to-end scenario. -/
def envGen : Env := envOf [("doc10", "[$generate_recursive lvl math v +]")]

/-- Name of the `n`-th source of the inclusion chain. -/
def fname (n : Nat) : String := "f" ++ Nat.repr n

/-- The inclusion chain: sources `f0 … f<last>`, each containing
exactly `[$file f<n+1>]` (so each includes the next; `f<last+1>` does
not exist). -/
def chainFS (last : Nat) : String → Option String := fun name =>
  match name.data with
  | 'f' :: ds =>
    match digitsToNat ds with
    | some n => if n ≤ last then some ("[$file " ++ fname (n + 1) ++ "]") else none
    | _ => none
  | _ => none

/-- Environment of the 101-source chain `f0 … f100`. -/
def chainEnv : Env := { fs := chainFS 100, pyEval := fun _ => none }

/-- The spec's reference definition of the pattern generator
(spec §4.8): `buildMathPattern(0) = "[VAR <prefix>0]"`,
`buildMathPattern(n>0) = "[MATH [VAR <prefix><n>] <op> " +
buildMathPattern(n-1) + "]"`.  Stated from the spec's words, to be
compared with the source's `_generate_repeated_math_pattern`. -/
def buildMathPattern (n : Nat) (pfx op : String) : String :=
  match n with
  | 0 => "[VAR " ++ pfx ++ "0]"
  | n + 1 =>
    "[MATH [VAR " ++ pfx ++ Nat.repr (n + 1) ++ "] " ++ op ++ " "
      ++ buildMathPattern n pfx op ++ "]"

deriving instance DecidableEq for Except

/-- Master state-discipline invariant of the engine, proved once and
instantiated by several claims:

* on a successful (`.ok`) result, any engine activity restores
  `current_path` to its initial value (everything pushed has been
  popped);
* a `CircularReferenceError` can only come out of a
  `process_file_recursive` activation, is raised at its entry (state
  untouched, nothing pushed yet), requires the filename to be on the
  stack already, and carries the full stack path
  `current_path + [filename]`;
* a `RecursionError` (depth ceiling) likewise can only come out of a
  `process_file_recursive` activation, at entry with state untouched,
  and only when the incoming `depth` argument exceeds 100. -/
theorem engine_inv (fuel : Nat) :
    ∀ (env : Env) (call : Call) (st : PState) (res : Except PErr String) (st' : PState),
      engine fuel env call st = (res, st') →
      ((∀ out, res = .ok out → st'.current_path = st.current_path) ∧
       (∀ p, res = .error (.circular p) →
          st' = st ∧ ∃ fn a d, call = .procFile fn a d ∧ fn ∈ st.current_path ∧
            p = st.current_path ++ [fn]) ∧
       (res = .error .depthExceeded →
          st' = st ∧ ∃ fn a d, call = .procFile fn a d ∧ 100 < d)) := by
  induction fuel with
  | zero =>
    intro env call st res st' h
    simp only [engine] at h
    cases h
    refine ⟨?_, ?_, ?_⟩
    · intro out h'; exact Except.noConfusion h'
    · intro p h'; injection h' with h''; exact PErr.noConfusion h''
    · intro h'; injection h' with h''; exact PErr.noConfusion h''
  | succ fuel ih =>
    intro env call st res st' h
    cases call with
    | procFile fn a d =>
      simp only [engine] at h
      by_cases hd : d > 100
      · rw [if_pos hd] at h
        cases h
        refine ⟨?_, ?_, ?_⟩
        · intro out h'; exact Except.noConfusion h'
        · intro p h'; injection h' with h''; exact PErr.noConfusion h''
        · intro _; exact ⟨rfl, fn, a, d, rfl, hd⟩
      · rw [if_neg hd] at h
        by_cases hm : fn ∈ st.current_path
        · rw [if_pos hm] at h
          cases h
          refine ⟨?_, ?_, ?_⟩
          · intro out h'; exact Except.noConfusion h'
          · intro p h'
            injection h' with h''
            injection h'' with h3
            exact ⟨rfl, fn, a, d, rfl, hm, h3.symm⟩
          · intro h'; injection h' with h''; exact PErr.noConfusion h''
        · rw [if_neg hm] at h
          split at h
          next out2 st2 heq =>
            cases h
            have hpath : st2.current_path = st.current_path ++ [fn] :=
              (ih _ _ _ _ _ heq).1 out2 rfl
            refine ⟨?_, ?_, ?_⟩
            · intro out h'
              show st2.current_path.dropLast = st.current_path
              rw [hpath]
              exact List.dropLast_concat ..
            · intro p h'; exact Except.noConfusion h'
            · intro h'; exact Except.noConfusion h'
          next e st2 heq =>
            cases h
            refine ⟨?_, ?_, ?_⟩
            · intro out h'; exact Except.noConfusion h'
            · intro p h'
              injection h' with h''
              subst h''
              rcases ((ih _ _ _ _ _ heq).2.1 p rfl).2 with ⟨_, _, _, hcall, _⟩
              exact Call.noConfusion hcall
            · intro h'
              injection h' with h''
              subst h''
              rcases ((ih _ _ _ _ _ heq).2.2 rfl).2 with ⟨_, _, _, hcall, _⟩
              exact Call.noConfusion hcall
    | loop content ctx =>
      simp only [engine] at h
      split at h
      next =>
        cases h
        refine ⟨?_, ?_, ?_⟩
        · intro out h'; exact rfl
        · intro p h'; exact Except.noConfusion h'
        · intro h'; exact Except.noConfusion h'
      next dm hdm =>
        split_ifs at h
        case _ =>
          split at h
          next repl st1 heq =>
            refine ⟨?_, ?_, ?_⟩
            · intro out h'
              exact ((ih _ _ _ _ _ h).1 out h').trans ((ih _ _ _ _ _ heq).1 repl rfl)
            · intro p h'
              rcases ((ih _ _ _ _ _ h).2.1 p h').2 with ⟨_, _, _, hcall, _⟩
              exact Call.noConfusion hcall
            · intro h'
              rcases ((ih _ _ _ _ _ h).2.2 h').2 with ⟨_, _, _, hcall, _⟩
              exact Call.noConfusion hcall
          next e st1 heq =>
            cases h
            refine ⟨?_, ?_, ?_⟩
            · intro out h'; exact Except.noConfusion h'
            · intro p h'
              injection h' with h''
              subst h''
              rcases ((ih _ _ _ _ _ heq).2.1 p rfl).2 with ⟨_, _, _, hcall, _⟩
              exact Call.noConfusion hcall
            · intro h'
              injection h' with h''
              subst h''
              rcases ((ih _ _ _ _ _ heq).2.2 rfl).2 with ⟨_, _, _, hcall, _⟩
              exact Call.noConfusion hcall
        case _ =>
          split at h
          next repl st1 heq =>
            refine ⟨?_, ?_, ?_⟩
            · intro out h'
              exact ((ih _ _ _ _ _ h).1 out h').trans ((ih _ _ _ _ _ heq).1 repl rfl)
            · intro p h'
              rcases ((ih _ _ _ _ _ h).2.1 p h').2 with ⟨_, _, _, hcall, _⟩
              exact Call.noConfusion hcall
            · intro h'
              rcases ((ih _ _ _ _ _ h).2.2 h').2 with ⟨_, _, _, hcall, _⟩
              exact Call.noConfusion hcall
          next e st1 heq =>
            cases h
            refine ⟨?_, ?_, ?_⟩
            · intro out h'; exact Except.noConfusion h'
            · intro p h'
              injection h' with h''
              subst h''
              rcases ((ih _ _ _ _ _ heq).2.1 p rfl).2 with ⟨_, _, _, hcall, _⟩
              exact Call.noConfusion hcall
            · intro h'
              injection h' with h''
              subst h''
              rcases ((ih _ _ _ _ _ heq).2.2 rfl).2 with ⟨_, _, _, hcall, _⟩
              exact Call.noConfusion hcall
        all_goals
          refine ⟨?_, ?_, ?_⟩
          · intro out h'
            exact (ih _ _ _ _ _ h).1 out h'
          · intro p h'
            rcases ((ih _ _ _ _ _ h).2.1 p h').2 with ⟨_, _, _, hcall, _⟩
            exact Call.noConfusion hcall
          · intro h'
            rcases ((ih _ _ _ _ _ h).2.2 h').2 with ⟨_, _, _, hcall, _⟩
            exact Call.noConfusion hcall
    | hFile args ctx =>
      simp only [engine] at h
      split at h
      next =>
        cases h
        refine ⟨?_, ?_, ?_⟩
        · intro out h'; exact rfl
        · intro p h'; exact Except.noConfusion h'
        · intro h'; exact Except.noConfusion h'
      next fn restArgs =>
        split at h
        next r st1 heq =>
          cases h
          refine ⟨?_, ?_, ?_⟩
          · intro out h'; exact (ih _ _ _ _ _ heq).1 r rfl
          · intro p h'; exact Except.noConfusion h'
          · intro h'; exact Except.noConfusion h'
        next q st1 heq =>
          cases h
          refine ⟨?_, ?_, ?_⟩
          · intro out h'
            exact congrArg PState.current_path ((ih _ _ _ _ _ heq).2.1 q rfl).1
          · intro p h'; exact Except.noConfusion h'
          · intro h'; exact Except.noConfusion h'
        next st1 heq =>
          cases h
          refine ⟨?_, ?_, ?_⟩
          · intro out h'
            exact congrArg PState.current_path ((ih _ _ _ _ _ heq).2.2 rfl).1
          · intro p h'; exact Except.noConfusion h'
          · intro h'; exact Except.noConfusion h'
        next st1 heq =>
          cases h
          refine ⟨?_, ?_, ?_⟩
          · intro out h'; exact Except.noConfusion h'
          · intro p h'; injection h' with h''; exact PErr.noConfusion h''
          · intro h'; injection h' with h''; exact PErr.noConfusion h''
        next st1 heq =>
          cases h
          refine ⟨?_, ?_, ?_⟩
          · intro out h'; exact Except.noConfusion h'
          · intro p h'; injection h' with h''; exact PErr.noConfusion h''
          · intro h'; injection h' with h''; exact PErr.noConfusion h''
    | hFileif args ctx =>
      simp only [engine] at h
      split at h
      next =>
        cases h
        refine ⟨?_, ?_, ?_⟩
        · intro out h'; exact rfl
        · intro p h'; exact Except.noConfusion h'
        · intro h'; exact Except.noConfusion h'
      next =>
        cases h
        refine ⟨?_, ?_, ?_⟩
        · intro out h'; exact Except.noConfusion h'
        · intro p h'; injection h' with h''; exact PErr.noConfusion h''
        · intro h'; injection h' with h''; exact PErr.noConfusion h''
      next fn check restArgs =>
        split_ifs at h
        case _ =>
          cases h
          refine ⟨?_, ?_, ?_⟩
          · intro out h'; exact rfl
          · intro p h'; exact Except.noConfusion h'
          · intro h'; exact Except.noConfusion h'
        case _ =>
          split at h
          next r st1 heq =>
            cases h
            refine ⟨?_, ?_, ?_⟩
            · intro out h'; exact (ih _ _ _ _ _ heq).1 r rfl
            · intro p h'; exact Except.noConfusion h'
            · intro h'; exact Except.noConfusion h'
          next q st1 heq =>
            cases h
            refine ⟨?_, ?_, ?_⟩
            · intro out h'
              exact congrArg PState.current_path ((ih _ _ _ _ _ heq).2.1 q rfl).1
            · intro p h'; exact Except.noConfusion h'
            · intro h'; exact Except.noConfusion h'
          next st1 heq =>
            cases h
            refine ⟨?_, ?_, ?_⟩
            · intro out h'
              exact congrArg PState.current_path ((ih _ _ _ _ _ heq).2.2 rfl).1
            · intro p h'; exact Except.noConfusion h'
            · intro h'; exact Except.noConfusion h'
          next st1 heq =>
            cases h
            refine ⟨?_, ?_, ?_⟩
            · intro out h'; exact Except.noConfusion h'
            · intro p h'; injection h' with h''; exact PErr.noConfusion h''
            · intro h'; injection h' with h''; exact PErr.noConfusion h''
          next st1 heq =>
            cases h
            refine ⟨?_, ?_, ?_⟩
            · intro out h'; exact Except.noConfusion h'
            · intro p h'; injection h' with h''; exact PErr.noConfusion h''
            · intro h'; injection h' with h''; exact PErr.noConfusion h''

/-- Unfolding helper: a `process_file_recursive` activation with fuel
left, depth within the ceiling and no cycle, whose rewrite loop ends in
an error, propagates that error — and, in particular, does not pop the
name pushed onto `current_path` (the source has no `try/finally`). -/
theorem procFile_step_error {n : Nat} {env : Env} {fn : String} {a : Option Dict}
    {d : Nat} {st st2 : PState} {e : PErr}
    (hd : ¬ 100 < d) (hm : fn ∉ st.current_path)
    (hl : engine n env
        (.loop (read_file_content env.fs fn)
          { depth := d + 1, args := a.getD [], filename := fn })
        { current_path := st.current_path ++ [fn], reads := st.reads ++ [fn] }
      = (.error e, st2)) :
    engine (n + 1) env (.procFile fn a d) st = (.error e, st2) := by
  simp only [engine]
  rw [if_neg hd, if_neg hm, hl]

/-- The `while` loop on the buffer `[$generate_recursive
missing_arguments]` never terminates: the handler's own
missing-arguments placeholder is itself a `generate_recursive`
directive with fewer than 3 arguments, so each pass rewrites the
buffer to itself. -/
theorem loop_gen_missing_diverges :
    ∀ (fuel : Nat) (env : Env) (ctx : Ctx) (st : PState),
      engine fuel env (.loop "[$generate_recursive missing_arguments]" ctx) st
        = (.error .fuel, st) := by
  intro fuel
  induction fuel with
  | zero => intro env ctx st; rfl
  | succ n ih => intro env ctx st; exact ih env ctx st

/-- The `while` loop on a buffer `[$generate_recursive a b]` (fewer
than 3 arguments) rewrites it in one pass to the missing-arguments
placeholder and then never terminates. -/
theorem loop_gen_two_args_diverges :
    ∀ (fuel : Nat) (env : Env) (ctx : Ctx) (st : PState),
      engine fuel env (.loop "[$generate_recursive a b]" ctx) st = (.error .fuel, st) := by
  intro fuel
  cases fuel with
  | zero => intro env ctx st; rfl
  | succ n => intro env ctx st; exact loop_gen_missing_diverges n env ctx st

/-- The `while` loop on a buffer containing a directive with an
unregistered name never terminates: the loop substitutes the original
matched text unchanged, so the very same directive is re-matched on
every pass. -/
theorem loop_unknown_diverges :
    ∀ (fuel : Nat) (env : Env) (ctx : Ctx) (st : PState),
      engine fuel env (.loop "ab [$nope] cd" ctx) st = (.error .fuel, st) := by
  intro fuel
  induction fuel with
  | zero => intro env ctx st; rfl
  | succ n ih => intro env ctx st; exact ih env ctx st

/-- Tokenizer helper: once inside brace state, everything up to the
closing brace — whitespace included — is accumulated into the current
token. -/
theorem tokenize_brace_span :
    ∀ (s : List Char), (∀ c ∈ s, c ≠ lbrace ∧ c ≠ rbrace) →
      ∀ (cur : List Char),
        tokenize_args_loop (s ++ [rbrace]) cur true = [String.mk (cur ++ s ++ [rbrace])] := by
  intro s
  induction s with
  | nil =>
    intro _ cur
    have h1 : rbrace ≠ lbrace := by decide
    simp [tokenize_args_loop, h1]
  | cons c s ih =>
    intro h cur
    have hc := h c (List.mem_cons_self c s)
    have hsub : ∀ x ∈ s, x ≠ lbrace ∧ x ≠ rbrace := fun x hx => h x (List.mem_cons_of_mem c hx)
    rw [List.cons_append]
    simp only [tokenize_args_loop, if_neg hc.1, if_neg hc.2, Bool.not_true, Bool.and_false,
      Bool.false_eq_true, if_false]
    rw [ih hsub (cur ++ [c])]
    simp

/-! ## Claims -/

/-- C1.  Contrary to the claim that non-circular, non-depth failures
are fully local, (i) expanding a document containing `[$fileif f]`
(gate key missing) raises an `IndexError` that escapes the handler and
the whole expansion (no diagnostic placeholder, the loop does not
continue), and (ii) expanding a document containing
`[$generate_recursive a b]` (fewer than 3 arguments) never terminates:
the handler's placeholder is itself a short `generate_recursive`
directive, so the loop rewrites the buffer to itself forever.  Only
failures whose placeholder is comment-style (e.g. an unbound `arg` or
a failing `python_eval`) are local, as the third conjunct shows. -/
theorem claim_C1_nonlocal_failures :
    process_file_recursive 50 envFileifOneArg "doc1" none 0 initState
      = (.error .indexError, { current_path := ["doc1"], reads := ["doc1"] }) ∧
    (∀ fuel : Nat,
      (process_file_recursive fuel envGenTwoArgs "doc2" none 0 initState).1 = .error .fuel) ∧
    process_file_recursive 50 envLocalFailures "doc3" none 0 initState
      = (.ok "x [# $arg nope] y [# $python_eval 1 +] z",
         { current_path := [], reads := ["doc3"] }) := by
  refine ⟨by decide, ?_, by decide⟩
  intro fuel
  cases fuel with
  | zero => rfl
  | succ n =>
    have hl := loop_gen_two_args_diverges n envGenTwoArgs
      { depth := 1, args := [], filename := "doc2" }
      { current_path := ["doc2"], reads := ["doc2"] }
    have h : engine (n + 1) envGenTwoArgs (.procFile "doc2" none 0) initState
        = (.error .fuel, { current_path := ["doc2"], reads := ["doc2"] }) :=
      procFile_step_error (by decide) (by decide) hl
    rw [process_file_recursive, h]

/-- C2.  The loader does return the literal fallback placeholder
`[$file nope]` for an unreadable source, but that placeholder does not
survive to the final output: being indistinguishable from a directive,
it is re-matched by the rewrite loop, the nested re-inclusion of the
same name trips the cycle check, and the final output contains
`[# $file nope: infinite loop]` instead — the literal `[$file nope]`
is not a substring of the result. -/
theorem claim_C2_fallback_not_preserved :
    read_file_content envMissingSource.fs "nope" = "[$file nope]" ∧
    process_file_recursive 50 envMissingSource "top" none 0 initState
      = (.ok "[# $file nope: infinite loop]",
         { current_path := [], reads := ["top", "nope"] }) ∧
    ¬ "[$file nope]".data <:+: "[# $file nope: infinite loop]".data := by
  exact ⟨by decide, by decide, by decide⟩

/-- C3.  On an unknown directive the engine does substitute the
original matched text unchanged (first two conjuncts: the splice is the
identity on the buffer), but precisely because of that the loop
re-matches the same directive on every pass and never terminates: for
every fuel bound, expanding `ab [$nope] cd` is still running. -/
theorem claim_C3_unknown_directive_loops :
    parse_directive "ab [$nope] cd"
      = some { full_match := "[$nope]", directive_name := "nope", args := [],
               start := 3, stop := 10 } ∧
    splice "ab [$nope] cd" 3 10 "[$nope]" = "ab [$nope] cd" ∧
    (∀ fuel : Nat,
      (process_file_recursive fuel envUnknownDirective "doc" none 0 initState).1
        = .error .fuel) := by
  refine ⟨by decide, by decide, ?_⟩
  intro fuel
  cases fuel with
  | zero => rfl
  | succ n =>
    have hl := loop_unknown_diverges n envUnknownDirective
      { depth := 1, args := [], filename := "doc" }
      { current_path := ["doc"], reads := ["doc"] }
    have h : engine (n + 1) envUnknownDirective (.procFile "doc" none 0) initState
        = (.error .fuel, { current_path := ["doc"], reads := ["doc"] }) :=
      procFile_step_error (by decide) (by decide) hl
    rw [process_file_recursive, h]

set_option maxRecDepth 200000 in
/-- C4 counterexample.  A chain of 101 nested distinct-named sources
each including the next (`f0 … f100`, with `f101` absent) does NOT
make the top-level expansion fail with DepthExceeded: the run succeeds
and returns a buffer (the condition fires only at the deepest
inclusion, where it is caught and replaced by a placeholder). -/
theorem claim_C4_counterexample :
    (process_file_recursive 1000 chainEnv "f0" none 0 initState).1
      = .ok "[# $file f101: infinite loop]" := by decide

set_option maxRecDepth 200000 in
/-- C4 (amended).  `process_file_recursive` fails with the
depth-ceiling RecursionError exactly when its `depth` argument exceeds
100; in the 101-source chain the deepest call (for `f101`, at depth
101) raises it, the including `file` handler catches it, and the
top-level expansion succeeds, returning the infinite-loop placeholder
after having read exactly `f0 … f100`. -/
theorem claim_C4_depth_ceiling :
    (∀ (fuel : Nat) (env : Env) (fn : String) (a : Option Dict) (d : Nat) (st : PState),
      (process_file_recursive (fuel + 1) env fn a d st).1 = .error .depthExceeded ↔ 100 < d) ∧
    process_file_recursive 1000 chainEnv "f0" none 0 initState
      = (.ok "[# $file f101: infinite loop]",
         { current_path := [], reads := (List.range 101).map fname }) := by
  constructor
  · intro fuel env fn a d st
    constructor
    · intro h
      rcases (engine_inv (fuel + 1) env (.procFile fn a d) st _ _
          (Prod.mk.eta (p := engine (fuel + 1) env (.procFile fn a d) st)).symm).2.2 h with
        ⟨-, fn', a', d', hcall, hd⟩
      injection hcall with e1 e2 e3
      omega
    · intro hd
      rw [process_file_recursive]
      simp only [engine]
      rw [if_pos hd]
  · decide

/-- C5 counterexample.  The call stack is NOT push/pop balanced on
every error path: expanding a document containing `[$fileif f]` makes
an `IndexError` propagate out of `process_file_recursive`, and the
pushed source name is still on `current_path` afterwards (the stack
before the call was empty). -/
theorem claim_C5_counterexample :
    process_file_recursive 50 envStackLeak "doc5" none 0 initState
      = (.error .indexError, { current_path := ["doc5"], reads := ["doc5"] }) ∧
    ({ current_path := ["doc5"], reads := ["doc5"] } : PState).current_path
      ≠ initState.current_path := by
  exact ⟨by decide, by decide⟩

/-- C5 (amended).  The stack discipline that does hold: on every
normal return `current_path` is restored exactly; and the two designed
error conditions (CircularReferenceError, the depth RecursionError)
are raised before the push, so they too leave `current_path` exactly
as it was.  Only an unexpected handler exception (the `fileif`
one-argument `IndexError` of the counterexample) escapes between push
and pop and leaves the pushed name behind. -/
theorem claim_C5_stack_balance :
    (∀ (fuel : Nat) (env : Env) (fn : String) (a : Option Dict) (d : Nat)
        (st : PState) (out : String) (st' : PState),
      process_file_recursive fuel env fn a d st = (.ok out, st') →
        st'.current_path = st.current_path) ∧
    (∀ (fuel : Nat) (env : Env) (fn : String) (a : Option Dict) (d : Nat)
        (st st' : PState) (p : List String),
      process_file_recursive fuel env fn a d st = (.error (.circular p), st') → st' = st) ∧
    (∀ (fuel : Nat) (env : Env) (fn : String) (a : Option Dict) (d : Nat)
        (st st' : PState),
      process_file_recursive fuel env fn a d st = (.error .depthExceeded, st') → st' = st) := by
  refine ⟨?_, ?_, ?_⟩
  · intro fuel env fn a d st out st' h
    exact (engine_inv fuel env _ st _ st' h).1 out rfl
  · intro fuel env fn a d st st' p h
    exact ((engine_inv fuel env _ st _ st' h).2.1 p rfl).1
  · intro fuel env fn a d st st' h
    exact ((engine_inv fuel env _ st _ st' h).2.2 rfl).1

/-- C5 witness: a concrete successful expansion restores the (empty)
call stack. -/
theorem claim_C5_stack_balance_witness :
    ({ current_path := [], reads := ["w.txt"] } : PState).current_path
      = initState.current_path :=
  claim_C5_stack_balance.1 10 envPlain "w.txt" none 0 initState "hello"
    { current_path := [], reads := ["w.txt"] } (by decide)

/-- C6.  Cycle detection: with `a` including `b` and `b` including
`a`, expanding `a` terminates and returns exactly the circular
placeholder `[# $file a: infinite loop]` naming the re-entered source
(the error was caught at the `file` handler boundary, so only that one
directive site was replaced); and in general, re-entering a source
already on the call stack (within the depth ceiling) fails at entry
with a CircularReferenceError carrying the full stack path
`current_path + [filename]` — the path the source formats into the
error message with `' -> '.join`. -/
theorem claim_C6_cycle_detection :
    process_file_recursive 50 envCycle "a" none 0 initState
      = (.ok "[# $file a: infinite loop]", { current_path := [], reads := ["a", "b"] }) ∧
    (∀ (fuel : Nat) (env : Env) (fn : String) (a : Option Dict) (d : Nat) (st : PState),
      d ≤ 100 → fn ∈ st.current_path →
        process_file_recursive (fuel + 1) env fn a d st
          = (.error (.circular (st.current_path ++ [fn])), st)) := by
  refine ⟨by decide, ?_⟩
  intro fuel env fn a d st hd hm
  rw [process_file_recursive]
  simp only [engine]
  rw [if_neg (by omega : ¬ 100 < d), if_pos hm]

/-- C6 witness: re-entering `a` while the stack is `[b, a]` raises the
circular error carrying the full path `[b, a, a]`. -/
theorem claim_C6_cycle_detection_witness :
    process_file_recursive 1 envCycle "a" none 0
        { current_path := ["b", "a"], reads := [] }
      = (.error (.circular ["b", "a", "a"]), { current_path := ["b", "a"], reads := [] }) :=
  claim_C6_cycle_detection.2 0 envCycle "a" none 0
    { current_path := ["b", "a"], reads := [] } (by decide) (by decide)

/-- C7.  Argument scopes do not chain: with top-level scope
`{x: "1"}`, the nested source included with the explicit dictionary
`{'y': '2'}` resolves `[$arg x]` to the unresolved placeholder
`[# $arg x]` (not `"1"`) and `[$arg y]` to `2`; and in general `arg`
returns the bound value exactly when the name is bound in the current
frame's scope, and otherwise the placeholder echoing the name. -/
theorem claim_C7_scope_isolation :
    process_file_recursive 50 envScopes "top" (some [("x", "1")]) 0 initState
      = (.ok "[# $arg x] 2", { current_path := [], reads := ["top", "nested"] }) ∧
    (∀ (name : String) (rest : List String) (ctx : Ctx) (v : String),
      dictGet ctx.args name = some v → handle_arg (name :: rest) ctx = v) ∧
    (∀ (name : String) (rest : List String) (ctx : Ctx),
      dictGet ctx.args name = none →
        handle_arg (name :: rest) ctx = "[# $arg " ++ name ++ "]") := by
  refine ⟨by decide, ?_, ?_⟩
  · intro name rest ctx v h
    simp [handle_arg, h]
  · intro name rest ctx h
    simp [handle_arg, h]

/-- C7 witness: the nested frame's own binding is returned. -/
theorem claim_C7_scope_isolation_witness :
    handle_arg ["y"] { depth := 2, args := [("y", "2")], filename := "nested" } = "2" :=
  claim_C7_scope_isolation.2.1 "y" []
    { depth := 2, args := [("y", "2")], filename := "nested" } "2" (by decide)

/-- C8.  `fileif` gating: whenever the gate key is absent from the
current frame's scope or bound to a falsy value (the falsy string is
`""`), the handler returns the empty string with the state — in
particular the read log — untouched: the target is never loaded and
nothing recurses.  Concretely, expanding `[$fileif other.txt flag]`
with `flag` absent (or bound to `""`) yields the empty buffer and a
read log that does not contain `other.txt`. -/
theorem claim_C8_fileif_gating :
    (∀ (fuel : Nat) (env : Env) (fn check : String) (rest : List String)
        (ctx : Ctx) (st : PState),
      dictGet ctx.args check = none ∨ dictGet ctx.args check = some "" →
        handle_fileif (fuel + 1) env (fn :: check :: rest) ctx st = (.ok "", st)) ∧
    process_file_recursive 50 envGate "x.txt" (some [("x", "1")]) 0 initState
      = (.ok "", { current_path := [], reads := ["x.txt"] }) ∧
    process_file_recursive 50 envGate "x.txt" (some [("flag", "")]) 0 initState
      = (.ok "", { current_path := [], reads := ["x.txt"] }) ∧
    "other.txt" ∉ ({ current_path := [], reads := ["x.txt"] } : PState).reads := by
  refine ⟨?_, by decide, by decide, by decide⟩
  intro fuel env fn check rest ctx st h
  rw [handle_fileif]
  simp only [engine]
  rcases h with h | h <;> simp [h, pyTruthy]

/-- C8 witness: the gating lemma at the concrete gate of the
scenario. -/
theorem claim_C8_fileif_gating_witness :
    handle_fileif 5 envGate ["other.txt", "flag"]
        { depth := 1, args := [("x", "1")], filename := "x.txt" } initState
      = (.ok "", initState) :=
  claim_C8_fileif_gating.1 4 envGate "other.txt" "flag" []
    { depth := 1, args := [("x", "1")], filename := "x.txt" } initState
    (Or.inl (by decide))

/-- C9.  Brace-delimited argument literals are kept intact: any
brace-delimited token whose body contains no further brace characters
— whitespace and other special characters allowed — is tokenized as a
single token, braces included (first conjunct); a full parse of a
directive carrying such a literal yields it as one argument (second
conjunct); and brace state is a mere open/close toggle, not a nesting
depth: a token with nested braces is closed by the first `}` and the
remainder is split at the following whitespace (third conjunct). -/
theorem claim_C9_brace_tokenization :
    (∀ (s : List Char), (∀ c ∈ s, c ≠ lbrace ∧ c ≠ rbrace) →
      tokenize_args (lbrace :: s ++ [rbrace]) = [String.mk (lbrace :: s ++ [rbrace])]) ∧
    parse_directive "[$file x.txt \x7b'k': 'v w'\x7d]"
      = some { full_match := "[$file x.txt \x7b'k': 'v w'\x7d]", directive_name := "file",
               args := ["x.txt", "\x7b'k': 'v w'\x7d"], start := 0, stop := 26 } ∧
    tokenize_args "\x7ba \x7bb\x7d c\x7d".data = ["\x7ba \x7bb\x7d", "c\x7d"] := by
  refine ⟨?_, by decide, by decide⟩
  intro s h
  calc tokenize_args (lbrace :: s ++ [rbrace])
      = tokenize_args_loop (s ++ [rbrace]) [lbrace] true := by
        simp [tokenize_args, tokenize_args_loop]
    _ = [String.mk ([lbrace] ++ s ++ [rbrace])] := tokenize_brace_span s h [lbrace]
    _ = [String.mk (lbrace :: s ++ [rbrace])] := by simp

/-- C9 witness: a brace literal containing whitespace survives as one
token. -/
theorem claim_C9_brace_tokenization_witness :
    tokenize_args (lbrace :: "a b".data ++ [rbrace])
      = [String.mk (lbrace :: "a b".data ++ [rbrace])] :=
  claim_C9_brace_tokenization.1 "a b".data (by decide)

/-- C10.  `generate_recursive` is deterministic and refines the spec's
`buildMathPattern` reference definition: the source's
`_generate_repeated_math_pattern` agrees with `buildMathPattern` at
every level (first conjunct); the handler, given pattern type `math`
and a scope binding of the level variable that parses to `n`, emits
exactly `buildMathPattern n` (second conjunct); and the concrete
scenario — `[$generate_recursive lvl math v +]` with scope
`{lvl: "2"}` — expands to exactly
`[MATH [VAR v2] + [MATH [VAR v1] + [VAR v0]]]` (third conjunct). -/
theorem claim_C10_generate_recursive :
    (∀ (n : Nat) (p op : String),
      generate_repeated_math_pattern n p op = buildMathPattern n p op) ∧
    (∀ (n : Nat) (lvl p op : String) (rest : List String) (ctx : Ctx) (s : String),
      dictGet ctx.args lvl = some s → pyInt s = some (n : Int) →
        handle_generate_recursive (lvl :: "math" :: p :: op :: rest) ctx
          = buildMathPattern n p op) ∧
    process_file_recursive 50 envGen "doc10" (some [("lvl", "2")]) 0 initState
      = (.ok "[MATH [VAR v2] + [MATH [VAR v1] + [VAR v0]]]",
         { current_path := [], reads := ["doc10"] }) := by
  have hbp : ∀ (n : Nat) (p op : String),
      generate_repeated_math_pattern.build_pattern n p op = buildMathPattern n p op := by
    intro n
    induction n with
    | zero => intro p op; rfl
    | succ m ih =>
      intro p op
      simp only [generate_repeated_math_pattern.build_pattern, buildMathPattern, ih]
  have hmain : ∀ (n : Nat) (p op : String),
      generate_repeated_math_pattern n p op = buildMathPattern n p op := by
    intro n p op
    cases n with
    | zero => rfl
    | succ m => exact hbp (m + 1) p op
  refine ⟨hmain, ?_, by decide⟩
  intro n lvl p op rest ctx s hs hn
  have hlen : ¬ (lvl :: "math" :: p :: op :: rest).length < 3 := by
    simp only [List.length_cons]
    omega
  rw [handle_generate_recursive, if_neg hlen]
  all_goals first
    | (rw [if_pos rfl]; exact hmain n p op)
    | (rw [hs]; exact hn)

/-- C10 witness: the handler at the concrete scenario arguments. -/
theorem claim_C10_generate_recursive_witness :
    handle_generate_recursive ["lvl", "math", "v", "+"]
        { depth := 1, args := [("lvl", "2")], filename := "doc10" }
      = buildMathPattern 2 "v" "+" :=
  claim_C10_generate_recursive.2.1 2 "lvl" "v" "+" []
    { depth := 1, args := [("lvl", "2")], filename := "doc10" } "2"
    (by decide) (by decide)

end Bppcomp

